import Mathlib

/-!
Shallow embedding of the account/multicall core of the
starknet-hardhat-plugin (src/account.ts): call aggregation, per-variant
message hashing and signing, nonce resolution, and dispatch orchestration.
Field elements are modelled as `Nat`; external collaborators (the ABI
adapter, hash primitives, elliptic-curve key derivation and signing, the
on-chain nonce read) are abstracted as components of an `Env` record.
-/

/-- Field element (values flowing through calldata, hashes, keys). -/
abbrev Felt := Nat

/-- Opaque elliptic-curve key pair handle (ec.KeyPair in the source). -/
abbrev KeyPair := Nat

/-- Named-argument mapping passed as calldata (StringMap in the source). -/
abbrev StringMap := List (String × Felt)

/-- One logical call after ABI encoding (the Call type of starknet.js):
contract address, entrypoint name, and flat encoded calldata. -/
structure Call where
  contractAddress : Felt
  entrypoint : String
  calldata : List Felt
  deriving Repr, DecidableEq, Inhabited

/-- Wire-level call descriptor pointing into a shared flat calldata buffer
(ExecuteCallParameters in src/account.ts, lines 31-36). -/
structure ExecuteCallParameters where
  toAddr : Felt
  selector : Felt
  data_offset : Nat
  data_len : Nat
  deriving Repr, DecidableEq, Inhabited

/-- One logical call as supplied by the caller (CallParameters from
account-utils): callee contract (modelled by its address), function name,
named calldata. -/
structure CallParameters where
  toContract : Felt
  functionName : String
  calldata : StringMap
  deriving Repr, DecidableEq, Inhabited

/-- The interaction choices (InteractChoice.INVOKE / CALL / ESTIMATE_FEE). -/
inductive Choice where
  | invoke
  | call
  | estimateFee
  deriving Repr, DecidableEq, Inhabited

/-- External collaborators of the core, fixed for a run: ABI encoding,
hash primitives, selector derivation, key material, signing, chain
configuration and the on-chain nonce read.  `chainId` is the already
byte-reinterpreted configured chain id; `txPrefixInvoke` is the
TransactionHashPrefix.INVOKE constant. -/
structure Env where
  adaptInput : Felt → String → StringMap → List Felt
  starknetKeccak : String → Felt
  getSelectorFromName : String → Felt
  computeHashOnElements : List Felt → Felt
  hashMulticall : Felt → List Call → Felt → Felt → Felt → Felt
  txPrefixInvoke : Felt
  chainId : Felt
  sign : KeyPair → Felt → Felt × Felt
  getKeyPair : String → KeyPair
  getStarkKey : KeyPair → Felt
  chainNonce : Felt
  transactionVersion : Choice → Felt

/-- Core identity data shared by both account variants: bound contract
address, private key (hex string), derived public key, key pair. -/
structure AccountCore where
  address : Felt
  privateKey : String
  publicKey : Felt
  keyPair : KeyPair
  deriving Repr, DecidableEq, Inhabited

/-- The closed account hierarchy: OpenZeppelinAccount, and ArgentAccount
which additionally carries guardian key material; the guardian key pair may
be null (`none`), as produced by ArgentAccount.getAccountFromAddress. -/
inductive Account where
  | openZeppelin (core : AccountCore)
  | argent (core : AccountCore) (guardianPrivateKey : String)
      (guardianPublicKey : Felt) (guardianKeyPair : Option KeyPair)
  deriving Repr, DecidableEq, Inhabited

/-- The address of the account's bound contract. -/
def Account.address : Account → Felt
  | .openZeppelin core => core.address
  | .argent core _ _ _ => core.address

/-- Whether the variant's execution method returns raw output
(src/account.ts lines 388-390 and 562-564). -/
def Account.hasRawOutput : Account → Bool
  | .openZeppelin _ => false
  | .argent _ _ _ _ => true

/-- The cairo execution entrypoint name (both variants override it to
"__execute__", src/account.ts lines 379-381 and 553-555). -/
def Account.getExecutionFunctionName : Account → String
  | .openZeppelin _ => "__execute__"
  | .argent _ _ _ _ => "__execute__"

/-- The forEach loop of Account.handleMultiInteract (src/account.ts lines
235-247): walk the call array in order, emitting one descriptor per call
whose data_offset is the current flat-buffer length and data_len the call's
encoded calldata length, and appending the calldata to the flat buffer. -/
def aggregate (env : Env) (callArray : List Call) :
    List ExecuteCallParameters × List Felt :=
  callArray.foldl
    (fun acc call =>
      (acc.1 ++ [{ toAddr := call.contractAddress
                   selector := env.starknetKeccak call.entrypoint
                   data_offset := acc.2.length
                   data_len := call.calldata.length }],
       acc.2 ++ call.calldata))
    ([], [])

/-- Length of the flat calldata contributed by the first `i` calls. -/
def prefixLen (callArray : List Call) (i : Nat) : Nat :=
  ((callArray.take i).map (fun c => c.calldata.length)).sum

/-- Direct recursive characterisation of the descriptor list produced by
`aggregate` when the flat buffer already holds `off` elements. -/
def descsFrom (env : Env) (off : Nat) : List Call → List ExecuteCallParameters
  | [] => []
  | c :: cs =>
      { toAddr := c.contractAddress
        selector := env.starknetKeccak c.entrypoint
        data_offset := off
        data_len := c.calldata.length } :: descsFrom env (off + c.calldata.length) cs

theorem aggregate_foldl_eq (env : Env) (callArray : List Call)
    (ds : List ExecuteCallParameters) (buf : List Felt) :
    callArray.foldl
      (fun acc call =>
        (acc.1 ++ [{ toAddr := call.contractAddress
                     selector := env.starknetKeccak call.entrypoint
                     data_offset := acc.2.length
                     data_len := call.calldata.length }],
         acc.2 ++ call.calldata))
      (ds, buf)
    = (ds ++ descsFrom env buf.length callArray,
       buf ++ (callArray.map Call.calldata).flatten) := by
  induction callArray generalizing ds buf with
  | nil => simp [descsFrom]
  | cons c cs ih =>
      simp only [List.foldl_cons, ih, descsFrom, List.map_cons, List.flatten_cons,
        List.length_append, List.append_assoc, List.cons_append, List.nil_append,
        List.singleton_append]

theorem aggregate_eq (env : Env) (callArray : List Call) :
    aggregate env callArray
      = (descsFrom env 0 callArray, (callArray.map Call.calldata).flatten) := by
  simpa using aggregate_foldl_eq env callArray [] []

theorem descsFrom_length (env : Env) (off : Nat) (callArray : List Call) :
    (descsFrom env off callArray).length = callArray.length := by
  induction callArray generalizing off with
  | nil => rfl
  | cons c cs ih => simp [descsFrom, ih]

theorem descsFrom_getD (env : Env) (off : Nat) (callArray : List Call)
    (i : Nat) (h : i < callArray.length) :
    (descsFrom env off callArray).getD i default
      = { toAddr := (callArray.getD i default).contractAddress
          selector := env.starknetKeccak (callArray.getD i default).entrypoint
          data_offset := off + prefixLen callArray i
          data_len := (callArray.getD i default).calldata.length } := by
  induction callArray generalizing off i with
  | nil => simp at h
  | cons c cs ih =>
      cases i with
      | zero => simp [descsFrom, prefixLen]
      | succ j =>
          have hj : j < cs.length := by simpa using h
          simp only [descsFrom, List.getD_cons_succ]
          rw [ih _ j hj]
          simp [prefixLen, Nat.add_assoc]

/-- Errors raised by the core (HardhatPluginError messages), by message. -/
abbrev PluginError := String

/-- The message thrown when the caller supplies a custom signature
(src/account.ts lines 190-194). -/
def unsupportedOverrideMsg : PluginError :=
  "Custom signature cannot be specified when using Account (it is calculated automatically)"

/-- The message thrown by getAccountFromAddress on a public-key mismatch
(src/account.ts lines 369-374 and 543-548). -/
def keyMismatchMsg : PluginError :=
  "The provided private key is not compatible with the public key stored in the contract."

/-- The descriptive error for a write-signing attempt with a null guardian
key pair (GuardianUnavailableError of the specification, section 7). -/
def guardianUnavailableMsg : PluginError :=
  "GuardianUnavailableError: cannot sign with a null guardian key pair"

/-- Modelled from the spec: `signMultiCall` (src/account-utils.ts) is not
part of the excerpted source.  Per sections 3, 4.3 and 7 of the
specification, signing produces the two field elements (r, s) of one
signature over the message hash from the given key pair, and an attempted
signature with null (absent) key material fails fast with the descriptive
GuardianUnavailableError rather than producing a malformed signature. -/
def signMultiCall (env : Env) (_publicKey : Felt) (keyPair : Option KeyPair)
    (messageHash : Felt) : Except PluginError (List Felt) :=
  match keyPair with
  | none => .error guardianUnavailableMsg
  | some kp => .ok [(env.sign kp messageHash).1, (env.sign kp messageHash).2]

/-- The hash preimage built by ArgentAccount.getMessageHash (src/account.ts
lines 428-443): call count, then per call (address, selector, running
calldata offset, calldata length), then total calldata length, the
flattened calldata, and the nonce. -/
def argentHashable (env : Env) (callArray : List Call) (nonce : Felt) : List Felt :=
  let acc := callArray.foldl
    (fun acc call =>
      (acc.1 ++ [call.contractAddress, env.starknetKeccak call.entrypoint,
                 acc.2.length, call.calldata.length],
       acc.2 ++ call.calldata))
    ([callArray.length], [])
  acc.1 ++ [acc.2.length] ++ acc.2 ++ [nonce]

/-- ArgentAccount.getMessageHash (src/account.ts lines 421-454): hash the
preimage, then combine with the invoke prefix, version, account address,
execution selector, max fee and adapted chain id. -/
def argentGetMessageHash (env : Env) (accountAddress : Felt)
    (callArray : List Call) (nonce maxFee version : Felt) : Felt :=
  env.computeHashOnElements
    [env.txPrefixInvoke, version, accountAddress,
     env.getSelectorFromName "__execute__",
     env.computeHashOnElements (argentHashable env callArray nonce),
     maxFee, env.chainId]

/-- OpenZeppelinAccount.getMessageHash (src/account.ts lines 307-315):
delegates to the starknet.js multicall hash over the logical call list. -/
def ozGetMessageHash (env : Env) (accountAddress : Felt)
    (callArray : List Call) (nonce maxFee version : Felt) : Felt :=
  env.hashMulticall accountAddress callArray nonce maxFee version

/-- Variant dispatch of the abstract getMessageHash method. -/
def Account.getMessageHash (env : Env) (acct : Account) (accountAddress : Felt)
    (callArray : List Call) (nonce maxFee version : Felt) : Felt :=
  match acct with
  | .openZeppelin _ => ozGetMessageHash env accountAddress callArray nonce maxFee version
  | .argent _ _ _ _ => argentGetMessageHash env accountAddress callArray nonce maxFee version

/-- Variant dispatch of the abstract getSignatures method.
OpenZeppelinAccount.getSignatures (lines 317-319) signs once with the sole
key pair; ArgentAccount.getSignatures (lines 456-464) concatenates the
signer's signature and the guardian's signature, both over the same
message hash, signer first. -/
def Account.getSignatures (env : Env) (acct : Account) (messageHash : Felt) :
    Except PluginError (List Felt) :=
  match acct with
  | .openZeppelin core => signMultiCall env core.publicKey (some core.keyPair) messageHash
  | .argent core _ guardianPublicKey guardianKeyPair => do
      let signerSignatures ← signMultiCall env core.publicKey (some core.keyPair) messageHash
      let guardianSignatures ← signMultiCall env guardianPublicKey guardianKeyPair messageHash
      pure (signerSignatures ++ guardianSignatures)

/-- OpenZeppelinAccount.getAccountFromAddress (src/account.ts lines
349-377): bind to the contract at `address`, read back its public key
(`onChainPublicKey` is the response of the get_public_key call), derive the
key pair and public key from the private key, and fail when they disagree. -/
def ozGetAccountFromAddress (env : Env) (address : Felt) (privateKey : String)
    (onChainPublicKey : Felt) : Except PluginError Account :=
  let keyPair := env.getKeyPair privateKey
  let publicKey := env.getStarkKey keyPair
  if publicKey ≠ onChainPublicKey then
    .error keyMismatchMsg
  else
    .ok (.openZeppelin { address := address, privateKey := privateKey
                         publicKey := publicKey, keyPair := keyPair })

/-- ArgentAccount.getAccountFromAddress (src/account.ts lines 524-551):
same read-back check against the get_signer response; on success the
account carries guardian fields "0", "0" and a null guardian key pair. -/
def argentGetAccountFromAddress (env : Env) (address : Felt) (privateKey : String)
    (onChainPublicKey : Felt) : Except PluginError Account :=
  let keyPair := env.getKeyPair privateKey
  let publicKey := env.getStarkKey keyPair
  if publicKey ≠ onChainPublicKey then
    .error keyMismatchMsg
  else
    .ok (.argent { address := address, privateKey := privateKey
                   publicKey := publicKey, keyPair := keyPair } "0" 0 none)

/-- The caller-supplied interaction options (InteractOptions): optional max
fee, optional nonce, optional signature override, optional raw-output
flag.  An absent field is `none` (undefined in the source). -/
structure OptionsObj where
  maxFee : Option Felt := none
  nonce : Option Felt := none
  signature : Option (List Felt) := none
  rawOutput : Option Bool := none
  deriving Repr, DecidableEq, Inhabited

/-- A heap of options objects; an options reference is an index into it.
This models JavaScript object identity: mutating through one reference
must not be visible through a distinct reference. -/
abbrev Store := List OptionsObj

/-- Allocate a fresh options object, returning the extended store and the
new reference. -/
def allocOpts (s : Store) (v : OptionsObj) : Store × Nat :=
  (s ++ [v], s.length)

/-- Read the options object behind a reference. -/
def readOpts (s : Store) (r : Nat) : OptionsObj :=
  s.getD r default

/-- Overwrite the options object behind a reference. -/
def writeOpts (s : Store) (r : Nat) (v : OptionsObj) : Store :=
  s.set r v

/-- Modelled from the spec: `copyWithBigint` (src/utils.ts) is not part of
the excerpted source.  It produces a detached copy of the options object
(bigint fields preserved), so later mutations of the copy are invisible
through the caller's reference; modelled as allocation of a fresh object
holding the same value. -/
def copyWithBigint (s : Store) (r : Nat) : Store × Nat :=
  allocOpts s (readOpts s r)

/-- Observable steps of one multicall, in execution order: the on-chain
nonce read, calldata aggregation, message-hash computation, signing, and
the final dispatch to the contract-invocation collaborator. -/
inductive Event where
  | nonceFetch
  | aggregateCalls
  | hashCompute
  | signMessage
  | dispatch
  deriving Repr, DecidableEq, Inhabited

/-- What the dispatch collaborator receives (the final contractInteractor
call, src/account.ts lines 196-202): the execution entrypoint, the
descriptor array, flat calldata and nonce (`args`, lines 260-264), and the
forwarded options with the computed signature attached. -/
structure DispatchRecord where
  entrypoint : String
  call_array : List ExecuteCallParameters
  calldata : List Felt
  nonce : Felt
  options : OptionsObj
  choice : Choice
  deriving Repr, DecidableEq, Inhabited

/-- Result of Account.handleMultiInteract: the message hash and the
execution arguments. -/
structure HMIResult where
  messageHash : Felt
  call_array : List ExecuteCallParameters
  calldata : List Felt
  deriving Repr, DecidableEq, Inhabited

/-- Account.handleMultiInteract (src/account.ts lines 217-267): ABI-encode
each logical call via the external adapter into the Call array, aggregate
it into descriptors plus flat calldata, and compute the variant's message
hash.  (The source's nonce/maxFee/version string adaptations are
value-preserving and elided; values stay field elements.) -/
def handleMultiInteract (env : Env) (acct : Account) (accountAddress : Felt)
    (callParameters : List CallParameters) (nonce maxFee version : Felt) :
    HMIResult :=
  let callArray : List Call := callParameters.map (fun cp =>
    { contractAddress := cp.toContract
      entrypoint := cp.functionName
      calldata := env.adaptInput cp.toContract cp.functionName cp.calldata })
  let agg := aggregate env callArray
  let messageHash :=
    Account.getMessageHash env acct accountAddress callArray nonce maxFee version
  { messageHash := messageHash, call_array := agg.1, calldata := agg.2 }

/-- The nonce resolved by multiInteract from the caller's options
(`options.nonce || (await this.getNonce())`), with the events the
resolution emits. -/
def resolveNonce (env : Env) (o : OptionsObj) : Felt × List Event :=
  match o.nonce with
  | some n => if n = 0 then (env.chainNonce, [.nonceFetch]) else (n, [])
  | none => (env.chainNonce, [.nonceFetch])

/-- Account.multiInteract (src/account.ts lines 172-203), with the store
threading object identity and the event trace recording the observable
steps.  Follows the source order exactly: copy the options; normalise
maxFee; resolve the nonce (the source uses JavaScript truthiness
`options.nonce || (await this.getNonce())`, so a supplied nonce of 0 falls
through to the on-chain read); delete the nonce field; run
handleMultiInteract (aggregation then hashing); only then reject a
caller-supplied signature; sign; dispatch with the signature attached. -/
def multiInteract (env : Env) (acct : Account) (choice : Choice)
    (callParameters : List CallParameters) (s0 : Store) (callerRef : Nat) :
    Store × List Event × Except PluginError DispatchRecord :=
  let copied := copyWithBigint s0 callerRef
  let s1 := copied.1
  let r := copied.2
  let o1 := { readOpts s0 callerRef with
              maxFee := some ((readOpts s0 callerRef).maxFee.getD 0) }
  let s2 := writeOpts s1 r o1
  let resolved := resolveNonce env o1
  let nonce := resolved.1
  let o2 := { o1 with nonce := none }
  let s3 := writeOpts s2 r o2
  let hmi := handleMultiInteract env acct acct.address callParameters nonce
    (o2.maxFee.getD 0) (env.transactionVersion choice)
  let trace := resolved.2 ++ [.aggregateCalls, .hashCompute]
  let out : List Event × Except PluginError DispatchRecord :=
    match o2.signature with
    | some _ => (trace, .error unsupportedOverrideMsg)
    | none =>
      match Account.getSignatures env acct hmi.messageHash with
      | .error e => (trace ++ [.signMessage], .error e)
      | .ok signatures =>
          (trace ++ [.signMessage, .dispatch],
           .ok { entrypoint := acct.getExecutionFunctionName
                 call_array := hmi.call_array
                 calldata := hmi.calldata
                 nonce := nonce
                 options := { o2 with signature := some signatures }
                 choice := choice })
  (s3, out)

/-- Account.call (src/account.ts lines 80-96): when the variant has raw
output, copy the options and set rawOutput before delegating to interact
(a single-call multiInteract with InteractChoice.CALL). -/
def Account.callModel (env : Env) (acct : Account) (toContract : Felt)
    (functionName : String) (calldata : StringMap) (s0 : Store) (callerRef : Nat) :
    Store × List Event × Except PluginError DispatchRecord :=
  let prepared :=
    if acct.hasRawOutput then
      let copied := copyWithBigint s0 callerRef
      (writeOpts copied.1 copied.2
        { readOpts copied.1 copied.2 with rawOutput := some true }, copied.2)
    else (s0, callerRef)
  multiInteract env acct .call
    [{ toContract := toContract, functionName := functionName, calldata := calldata }]
    prepared.1 prepared.2

/-- Account.multiCall (src/account.ts lines 134-148): same rawOutput
preparation as call, over an arbitrary call list. -/
def Account.multiCallModel (env : Env) (acct : Account)
    (callParameters : List CallParameters) (s0 : Store) (callerRef : Nat) :
    Store × List Event × Except PluginError DispatchRecord :=
  let prepared :=
    if acct.hasRawOutput then
      let copied := copyWithBigint s0 callerRef
      (writeOpts copied.1 copied.2
        { readOpts copied.1 copied.2 with rawOutput := some true }, copied.2)
    else (s0, callerRef)
  multiInteract env acct .call callParameters prepared.1 prepared.2

/-- Account.estimateFee (src/account.ts lines 98-111): delegates directly
to interact with InteractChoice.ESTIMATE_FEE; the options are passed
through untouched (no rawOutput handling). -/
def Account.estimateFeeModel (env : Env) (acct : Account) (toContract : Felt)
    (functionName : String) (calldata : StringMap) (s0 : Store) (callerRef : Nat) :
    Store × List Event × Except PluginError DispatchRecord :=
  multiInteract env acct .estimateFee
    [{ toContract := toContract, functionName := functionName, calldata := calldata }]
    s0 callerRef

/-- Account.multiEstimateFee (src/account.ts lines 165-170): delegates
directly to multiInteract with ESTIMATE_FEE, options untouched. -/
def Account.multiEstimateFeeModel (env : Env) (acct : Account)
    (callParameters : List CallParameters) (s0 : Store) (callerRef : Nat) :
    Store × List Event × Except PluginError DispatchRecord :=
  multiInteract env acct .estimateFee callParameters s0 callerRef

theorem prefixLen_zero (callArray : List Call) : prefixLen callArray 0 = 0 := by
  simp [prefixLen]

theorem prefixLen_succ (callArray : List Call) (i : Nat) (h : i < callArray.length) :
    prefixLen callArray (i + 1)
      = prefixLen callArray i + (callArray.getD i default).calldata.length := by
  induction callArray generalizing i with
  | nil => simp at h
  | cons c cs ih =>
      cases i with
      | zero => simp [prefixLen]
      | succ j =>
          have hj : j < cs.length := by simpa using h
          simp only [prefixLen, List.take_succ_cons, List.map_cons, List.sum_cons,
            List.getD_cons_succ]
          have := ih j hj
          simp only [prefixLen] at this
          omega

theorem flatten_length_eq_prefixLen (callArray : List Call) :
    (callArray.map Call.calldata).flatten.length = prefixLen callArray callArray.length := by
  induction callArray with
  | nil => simp [prefixLen]
  | cons c cs ih =>
      simp only [List.map_cons, List.flatten_cons, List.length_append, ih, prefixLen,
        List.take_length, List.map_cons, List.sum_cons]

theorem flatten_slice (callArray : List Call) (i : Nat) (h : i < callArray.length) :
    (((callArray.map Call.calldata).flatten.drop (prefixLen callArray i)).take
        (callArray.getD i default).calldata.length)
      = (callArray.getD i default).calldata := by
  induction callArray generalizing i with
  | nil => simp at h
  | cons c cs ih =>
      cases i with
      | zero =>
          simp [prefixLen, List.take_append]
      | succ j =>
          have hj : j < cs.length := by simpa using h
          have hpre : prefixLen (c :: cs) (j + 1) = c.calldata.length + prefixLen cs j := by
            simp [prefixLen, List.take_succ_cons]
          simp only [List.map_cons, List.flatten_cons, List.getD_cons_succ, hpre,
            List.drop_append]
          exact ih j hj

/-- C3: aggregation produces one descriptor per call in input order; each
descriptor's dataOffset equals the flat calldata accumulated so far (the
prefix sum of earlier encoded lengths), its dataLength equals the call's
encoded calldata length, the (dataOffset, dataLength) ranges exactly tile
the flat buffer (consecutive ranges abut, the first starts at 0, the
buffer's total length is the sum of all lengths, and the designated slice
of the buffer is exactly that call's calldata), and zero-length calldata is
legal (no hypothesis excludes it). -/
theorem aggregate_tiling (env : Env) (callArray : List Call) (i : Nat)
    (h : i < callArray.length) :
    (aggregate env callArray).1.length = callArray.length
    ∧ (aggregate env callArray).2 = (callArray.map Call.calldata).flatten
    ∧ ((aggregate env callArray).1.getD i default).toAddr
        = (callArray.getD i default).contractAddress
    ∧ ((aggregate env callArray).1.getD i default).selector
        = env.starknetKeccak (callArray.getD i default).entrypoint
    ∧ ((aggregate env callArray).1.getD i default).data_offset = prefixLen callArray i
    ∧ ((aggregate env callArray).1.getD i default).data_len
        = (callArray.getD i default).calldata.length
    ∧ ((aggregate env callArray).1.getD i default).data_offset
        + ((aggregate env callArray).1.getD i default).data_len
        = prefixLen callArray (i + 1)
    ∧ prefixLen callArray 0 = 0
    ∧ (aggregate env callArray).2.length = prefixLen callArray callArray.length
    ∧ (((aggregate env callArray).2.drop (prefixLen callArray i)).take
          ((aggregate env callArray).1.getD i default).data_len)
        = (callArray.getD i default).calldata := by
  rw [aggregate_eq]
  rw [descsFrom_getD env 0 callArray i h]
  refine ⟨descsFrom_length env 0 callArray, rfl, rfl, rfl, by simp, rfl, ?_, ?_, ?_, ?_⟩
  · simp [prefixLen_succ callArray i h]
  · exact prefixLen_zero callArray
  · exact flatten_length_eq_prefixLen callArray
  · simpa using flatten_slice callArray i h

/-- A concrete instantiation of the external collaborators, used to
evaluate the embedding on closed inputs. -/
def env0 : Env where
  adaptInput := fun _ _ namedArgs => namedArgs.map Prod.snd
  starknetKeccak := fun s => s.length
  getSelectorFromName := fun s => s.length + 1000
  computeHashOnElements := fun l => l.length + 10 * l.sum
  hashMulticall := fun a _ n f v => a + n + f + v
  txPrefixInvoke := 115
  chainId := 23448594291968334
  sign := fun kp h => (kp + h, kp * h + 1)
  getKeyPair := fun s => s.length
  getStarkKey := fun kp => kp + 100
  chainNonce := 7
  transactionVersion := fun c => match c with
    | .invoke => 0
    | .call => 1
    | .estimateFee => 2

/-- A concrete two-call array used to evaluate aggregation. -/
def calls0 : List Call :=
  [{ contractAddress := 5, entrypoint := "f", calldata := [9, 8] },
   { contractAddress := 6, entrypoint := "g", calldata := [] }]

theorem aggregate_tiling_witness :
    0 < calls0.length
    ∧ ((aggregate env0 calls0).1.length = calls0.length
    ∧ (aggregate env0 calls0).2 = (calls0.map Call.calldata).flatten
    ∧ ((aggregate env0 calls0).1.getD 0 default).toAddr
        = (calls0.getD 0 default).contractAddress
    ∧ ((aggregate env0 calls0).1.getD 0 default).selector
        = env0.starknetKeccak (calls0.getD 0 default).entrypoint
    ∧ ((aggregate env0 calls0).1.getD 0 default).data_offset = prefixLen calls0 0
    ∧ ((aggregate env0 calls0).1.getD 0 default).data_len
        = (calls0.getD 0 default).calldata.length
    ∧ ((aggregate env0 calls0).1.getD 0 default).data_offset
        + ((aggregate env0 calls0).1.getD 0 default).data_len
        = prefixLen calls0 (0 + 1)
    ∧ prefixLen calls0 0 = 0
    ∧ (aggregate env0 calls0).2.length = prefixLen calls0 calls0.length
    ∧ (((aggregate env0 calls0).2.drop (prefixLen calls0 0)).take
          ((aggregate env0 calls0).1.getD 0 default).data_len)
        = (calls0.getD 0 default).calldata) :=
  ⟨by decide, aggregate_tiling env0 calls0 0 (by decide)⟩

/-- C4: on the three calls (A, "foo", `x:1`), (B, "bar", empty),
(A, "baz", `y:2, z:3`) whose encoded calldata are [1], [], [2, 3] (lengths
1, 0, 2), aggregation inside handleMultiInteract yields descriptors with
offsets [0, 1, 1] and lengths [1, 0, 2] and a flat calldata buffer [1, 2, 3]
of length 3, and the Argent-variant hash preimage begins
[3, A, selectorOf "foo", 0, 1, B, selectorOf "bar", 1, 0,
 A, selectorOf "baz", 1, 2, 3, ...]. -/
theorem scenario_three_calls (env : Env) (acct : Account)
    (accountAddress A B nonce maxFee version : Felt)
    (hfoo : env.adaptInput A "foo" [("x", 1)] = [1])
    (hbar : env.adaptInput B "bar" [] = [])
    (hbaz : env.adaptInput A "baz" [("y", 2), ("z", 3)] = [2, 3]) :
    (handleMultiInteract env acct accountAddress
        [{ toContract := A, functionName := "foo", calldata := [("x", 1)] },
         { toContract := B, functionName := "bar", calldata := [] },
         { toContract := A, functionName := "baz", calldata := [("y", 2), ("z", 3)] }]
        nonce maxFee version).call_array
      = [{ toAddr := A, selector := env.starknetKeccak "foo", data_offset := 0, data_len := 1 },
         { toAddr := B, selector := env.starknetKeccak "bar", data_offset := 1, data_len := 0 },
         { toAddr := A, selector := env.starknetKeccak "baz", data_offset := 1, data_len := 2 }]
    ∧ (handleMultiInteract env acct accountAddress
        [{ toContract := A, functionName := "foo", calldata := [("x", 1)] },
         { toContract := B, functionName := "bar", calldata := [] },
         { toContract := A, functionName := "baz", calldata := [("y", 2), ("z", 3)] }]
        nonce maxFee version).calldata = [1, 2, 3]
    ∧ (argentHashable env
        [{ contractAddress := A, entrypoint := "foo", calldata := [1] },
         { contractAddress := B, entrypoint := "bar", calldata := [] },
         { contractAddress := A, entrypoint := "baz", calldata := [2, 3] }] nonce).take 14
      = [3, A, env.starknetKeccak "foo", 0, 1,
         B, env.starknetKeccak "bar", 1, 0,
         A, env.starknetKeccak "baz", 1, 2, 3] := by
  refine ⟨?_, ?_, ?_⟩
  · simp [handleMultiInteract, aggregate, hfoo, hbar, hbaz]
  · simp [handleMultiInteract, aggregate, hfoo, hbar, hbaz]
  · simp [argentHashable]

theorem scenario_three_calls_witness :
    (env0.adaptInput 11 "foo" [("x", 1)] = [1]
      ∧ env0.adaptInput 22 "bar" [] = []
      ∧ env0.adaptInput 11 "baz" [("y", 2), ("z", 3)] = [2, 3])
    ∧ ((handleMultiInteract env0 (.openZeppelin default) 33
        [{ toContract := 11, functionName := "foo", calldata := [("x", 1)] },
         { toContract := 22, functionName := "bar", calldata := [] },
         { toContract := 11, functionName := "baz", calldata := [("y", 2), ("z", 3)] }]
        5 0 1).call_array
      = [{ toAddr := 11, selector := env0.starknetKeccak "foo", data_offset := 0, data_len := 1 },
         { toAddr := 22, selector := env0.starknetKeccak "bar", data_offset := 1, data_len := 0 },
         { toAddr := 11, selector := env0.starknetKeccak "baz", data_offset := 1, data_len := 2 }]
    ∧ (handleMultiInteract env0 (.openZeppelin default) 33
        [{ toContract := 11, functionName := "foo", calldata := [("x", 1)] },
         { toContract := 22, functionName := "bar", calldata := [] },
         { toContract := 11, functionName := "baz", calldata := [("y", 2), ("z", 3)] }]
        5 0 1).calldata = [1, 2, 3]
    ∧ (argentHashable env0
        [{ contractAddress := 11, entrypoint := "foo", calldata := [1] },
         { contractAddress := 22, entrypoint := "bar", calldata := [] },
         { contractAddress := 11, entrypoint := "baz", calldata := [2, 3] }] 5).take 14
      = [3, 11, env0.starknetKeccak "foo", 0, 1,
         22, env0.starknetKeccak "bar", 1, 0,
         11, env0.starknetKeccak "baz", 1, 2, 3]) :=
  ⟨⟨rfl, rfl, rfl⟩, scenario_three_calls env0 (.openZeppelin default) 33 11 22 5 0 1 rfl rfl rfl⟩

/-- C7: for both variants, getAccountFromAddress fails with the
key-mismatch error and constructs no account whenever the locally derived
public key differs from the one read back from the contract; when they
agree it returns an account bound to the requested address. -/
theorem getAccountFromAddress_key_check (env : Env) (address : Felt)
    (privateKey : String) (onChainPublicKey : Felt) :
    (env.getStarkKey (env.getKeyPair privateKey) ≠ onChainPublicKey →
      ozGetAccountFromAddress env address privateKey onChainPublicKey
          = .error keyMismatchMsg
      ∧ argentGetAccountFromAddress env address privateKey onChainPublicKey
          = .error keyMismatchMsg)
    ∧ (env.getStarkKey (env.getKeyPair privateKey) = onChainPublicKey →
      ozGetAccountFromAddress env address privateKey onChainPublicKey
          = .ok (.openZeppelin
              { address := address, privateKey := privateKey
                publicKey := env.getStarkKey (env.getKeyPair privateKey)
                keyPair := env.getKeyPair privateKey })
      ∧ argentGetAccountFromAddress env address privateKey onChainPublicKey
          = .ok (.argent
              { address := address, privateKey := privateKey
                publicKey := env.getStarkKey (env.getKeyPair privateKey)
                keyPair := env.getKeyPair privateKey } "0" 0 none)
      ∧ ∀ acct, ozGetAccountFromAddress env address privateKey onChainPublicKey = .ok acct
          ∨ argentGetAccountFromAddress env address privateKey onChainPublicKey = .ok acct
          → acct.address = address) := by
  constructor
  · intro hne
    constructor
    · simp [ozGetAccountFromAddress, hne]
    · simp [argentGetAccountFromAddress, hne]
  · intro heq
    refine ⟨by simp [ozGetAccountFromAddress, heq], by simp [argentGetAccountFromAddress, heq], ?_⟩
    intro acct hacct
    rcases hacct with hoz | harg
    · simp [ozGetAccountFromAddress, heq] at hoz
      subst hoz
      rfl
    · simp [argentGetAccountFromAddress, heq] at harg
      subst harg
      rfl

theorem getAccountFromAddress_key_check_witness :
    ((env0.getStarkKey (env0.getKeyPair "ab") ≠ 999
      ∧ (ozGetAccountFromAddress env0 42 "ab" 999 = .error keyMismatchMsg
         ∧ argentGetAccountFromAddress env0 42 "ab" 999 = .error keyMismatchMsg))
    ∧ (env0.getStarkKey (env0.getKeyPair "ab") = 102
      ∧ (ozGetAccountFromAddress env0 42 "ab" 102
          = .ok (.openZeppelin
              { address := 42, privateKey := "ab"
                publicKey := env0.getStarkKey (env0.getKeyPair "ab")
                keyPair := env0.getKeyPair "ab" })
      ∧ argentGetAccountFromAddress env0 42 "ab" 102
          = .ok (.argent
              { address := 42, privateKey := "ab"
                publicKey := env0.getStarkKey (env0.getKeyPair "ab")
                keyPair := env0.getKeyPair "ab" } "0" 0 none)
      ∧ ∀ acct, ozGetAccountFromAddress env0 42 "ab" 102 = .ok acct
          ∨ argentGetAccountFromAddress env0 42 "ab" 102 = .ok acct
          → acct.address = 42))) :=
  ⟨⟨by decide, (getAccountFromAddress_key_check env0 42 "ab" 999).1 (by decide)⟩,
   ⟨by decide, (getAccountFromAddress_key_check env0 42 "ab" 102).2 (by decide)⟩⟩

/-- C8: message hashing is deterministic for every account variant: with
the chain configuration and collaborators fixed (one `Env`), equal
(address, call array, nonce, maxFee, version) inputs always produce equal
message hashes; no randomness enters either variant's hashing. -/
theorem getMessageHash_deterministic (env : Env) (acct : Account)
    (a1 a2 : Felt) (c1 c2 : List Call) (n1 n2 f1 f2 v1 v2 : Felt)
    (ha : a1 = a2) (hc : c1 = c2) (hn : n1 = n2) (hf : f1 = f2) (hv : v1 = v2) :
    Account.getMessageHash env acct a1 c1 n1 f1 v1
      = Account.getMessageHash env acct a2 c2 n2 f2 v2 := by
  subst ha hc hn hf hv
  rfl

theorem getMessageHash_deterministic_witness :
    ((3 : Felt) = 3 ∧ calls0 = calls0 ∧ (5 : Felt) = 5 ∧ (0 : Felt) = 0 ∧ (1 : Felt) = 1)
    ∧ Account.getMessageHash env0 (.argent default "g" 0 none) 3 calls0 5 0 1
        = Account.getMessageHash env0 (.argent default "g" 0 none) 3 calls0 5 0 1 :=
  ⟨⟨rfl, rfl, rfl, rfl, rfl⟩,
   getMessageHash_deterministic env0 (.argent default "g" 0 none)
     3 3 calls0 calls0 5 5 0 0 1 1 rfl rfl rfl rfl rfl⟩

/-- C2: an ArgentAccount whose guardian key pair is null (as produced by
ArgentAccount.getAccountFromAddress) fails any signature computation fast
with the descriptive guardian-unavailable error instead of returning a
malformed signature array. -/
theorem argent_null_guardian_sign_fails (env : Env) (core : AccountCore)
    (guardianPrivateKey : String) (guardianPublicKey : Felt) (messageHash : Felt) :
    Account.getSignatures env
        (.argent core guardianPrivateKey guardianPublicKey none) messageHash
      = .error guardianUnavailableMsg
    ∧ ∀ address privateKey onChainPublicKey acct,
        argentGetAccountFromAddress env address privateKey onChainPublicKey = .ok acct
        → Account.getSignatures env acct messageHash = .error guardianUnavailableMsg := by
  constructor
  · rfl
  · intro address privateKey onChainPublicKey acct hacct
    unfold argentGetAccountFromAddress at hacct
    by_cases hk : env.getStarkKey (env.getKeyPair privateKey) = onChainPublicKey
    · simp [hk] at hacct
      subst hacct
      rfl
    · simp [hk] at hacct

theorem argent_null_guardian_sign_fails_witness :
    argentGetAccountFromAddress env0 42 "ab" 102 = .ok
        (.argent { address := 42, privateKey := "ab"
                   publicKey := 102, keyPair := 2 } "0" 0 none)
    ∧ Account.getSignatures env0
        (.argent { address := 42, privateKey := "ab"
                   publicKey := 102, keyPair := 2 } "0" 0 none) 77
      = .error guardianUnavailableMsg :=
  ⟨by rfl,
   (argent_null_guardian_sign_fails env0
      { address := 42, privateKey := "ab", publicKey := 102, keyPair := 2 } "0" 0 77).2
     42 "ab" 102 _ (by rfl)⟩

/-- C9: the Argent variant's signature array is the signer's (r, s) pair
followed by the guardian's (r, s) pair, both signatures computed over the
same message hash, and its length is exactly twice the length of the
OpenZeppelin variant's signature array for the same message hash. -/
theorem argent_signature_order (env : Env) (core : AccountCore)
    (guardianPrivateKey : String) (guardianPublicKey : Felt)
    (guardianKeyPair : KeyPair) (messageHash : Felt) :
    Account.getSignatures env
        (.argent core guardianPrivateKey guardianPublicKey (some guardianKeyPair))
        messageHash
      = .ok ([(env.sign core.keyPair messageHash).1, (env.sign core.keyPair messageHash).2]
             ++ [(env.sign guardianKeyPair messageHash).1,
                 (env.sign guardianKeyPair messageHash).2])
    ∧ Account.getSignatures env (.openZeppelin core) messageHash
      = .ok [(env.sign core.keyPair messageHash).1, (env.sign core.keyPair messageHash).2]
    ∧ ∀ la lo,
        Account.getSignatures env
            (.argent core guardianPrivateKey guardianPublicKey (some guardianKeyPair))
            messageHash = .ok la
        → Account.getSignatures env (.openZeppelin core) messageHash = .ok lo
        → la.length = 2 * lo.length := by
  refine ⟨rfl, rfl, ?_⟩
  intro la lo hla hlo
  have e1 : Account.getSignatures env
      (.argent core guardianPrivateKey guardianPublicKey (some guardianKeyPair)) messageHash
      = Except.ok ([(env.sign core.keyPair messageHash).1,
                    (env.sign core.keyPair messageHash).2]
                   ++ [(env.sign guardianKeyPair messageHash).1,
                       (env.sign guardianKeyPair messageHash).2]) := rfl
  have e2 : Account.getSignatures env (.openZeppelin core) messageHash
      = Except.ok [(env.sign core.keyPair messageHash).1,
                   (env.sign core.keyPair messageHash).2] := rfl
  rw [e1] at hla
  rw [e2] at hlo
  simp only [Except.ok.injEq] at hla hlo
  subst hla hlo
  rfl

/-- A concrete account core used to evaluate signing. -/
def core0 : AccountCore :=
  { address := 1, privateKey := "pk", publicKey := 2, keyPair := 4 }

theorem argent_signature_order_witness :
    Account.getSignatures env0 (.argent core0 "g" 3 (some 9)) 77
      = .ok ([(env0.sign core0.keyPair 77).1, (env0.sign core0.keyPair 77).2]
             ++ [(env0.sign 9 77).1, (env0.sign 9 77).2])
    ∧ Account.getSignatures env0 (.openZeppelin core0) 77
      = .ok [(env0.sign core0.keyPair 77).1, (env0.sign core0.keyPair 77).2]
    ∧ ([(env0.sign core0.keyPair 77).1, (env0.sign core0.keyPair 77).2]
         ++ [(env0.sign 9 77).1, (env0.sign 9 77).2]).length
      = 2 * [(env0.sign core0.keyPair 77).1, (env0.sign core0.keyPair 77).2].length :=
  ⟨(argent_signature_order env0 core0 "g" 3 9 77).1,
   (argent_signature_order env0 core0 "g" 3 9 77).2.1,
   (argent_signature_order env0 core0 "g" 3 9 77).2.2 _ _
     (argent_signature_order env0 core0 "g" 3 9 77).1
     (argent_signature_order env0 core0 "g" 3 9 77).2.1⟩

theorem readOpts_append_self (s : Store) (v : OptionsObj) :
    readOpts (s ++ [v]) s.length = v := by
  simp [readOpts, List.getD]

theorem readOpts_append_lt (s : Store) (v : OptionsObj) (j : Nat) (h : j < s.length) :
    readOpts (s ++ [v]) j = readOpts s j := by
  simp [readOpts, List.getD, List.getElem?_append_left h]

theorem readOpts_set_self (s : Store) (r : Nat) (v : OptionsObj) (h : r < s.length) :
    readOpts (writeOpts s r v) r = v := by
  simp [readOpts, writeOpts, List.getD, List.getElem?_set_self, h]

theorem readOpts_set_ne (s : Store) (r j : Nat) (v : OptionsObj) (h : r ≠ j) :
    readOpts (writeOpts s r v) j = readOpts s j := by
  simp [readOpts, writeOpts, List.getD, List.getElem?_set_ne h]

/-- The trace and outcome of multiInteract, as a pure function of the
caller's options value (the store only carries object identity). -/
def multiInteractResult (env : Env) (acct : Account) (choice : Choice)
    (callParameters : List CallParameters) (o : OptionsObj) :
    List Event × Except PluginError DispatchRecord :=
  let o1 := { o with maxFee := some (o.maxFee.getD 0) }
  let resolved := resolveNonce env o1
  let nonce := resolved.1
  let o2 := { o1 with nonce := none }
  let hmi := handleMultiInteract env acct acct.address callParameters nonce
    (o2.maxFee.getD 0) (env.transactionVersion choice)
  let trace := resolved.2 ++ [.aggregateCalls, .hashCompute]
  match o2.signature with
  | some _ => (trace, .error unsupportedOverrideMsg)
  | none =>
    match Account.getSignatures env acct hmi.messageHash with
    | .error e => (trace ++ [.signMessage], .error e)
    | .ok signatures =>
        (trace ++ [.signMessage, .dispatch],
         .ok { entrypoint := acct.getExecutionFunctionName
               call_array := hmi.call_array
               calldata := hmi.calldata
               nonce := nonce
               options := { o2 with signature := some signatures }
               choice := choice })

theorem multiInteract_run (env : Env) (acct : Account) (choice : Choice)
    (callParameters : List CallParameters) (s0 : Store) (callerRef : Nat) :
    (multiInteract env acct choice callParameters s0 callerRef).2
      = multiInteractResult env acct choice callParameters (readOpts s0 callerRef) := by
  simp only [multiInteract, multiInteractResult, copyWithBigint, allocOpts]

/-- C10: multiInteract never mutates the caller's options object: the copy
is taken first and every subsequent field update (maxFee normalisation,
nonce deletion, signature attachment) hits only the copy, so the value
visible through the caller's reference is unchanged in the returned store,
whether the interaction returns a dispatch record or throws. -/
theorem multiInteract_preserves_caller_options (env : Env) (acct : Account)
    (choice : Choice) (callParameters : List CallParameters) (s0 : Store)
    (callerRef : Nat) (h : callerRef < s0.length) :
    readOpts (multiInteract env acct choice callParameters s0 callerRef).1 callerRef
      = readOpts s0 callerRef := by
  have hne : s0.length ≠ callerRef := by omega
  simp only [multiInteract, copyWithBigint, allocOpts]
  rw [readOpts_set_ne _ _ _ _ hne, readOpts_set_ne _ _ _ _ hne,
    readOpts_append_lt _ _ _ h]

theorem multiInteract_preserves_caller_options_witness :
    0 < ([{ maxFee := some 44, nonce := some 3, signature := none,
            rawOutput := none }] : Store).length
    ∧ readOpts (multiInteract env0 (.openZeppelin core0) .invoke
        [{ toContract := 11, functionName := "foo", calldata := [("x", 1)] }]
        [{ maxFee := some 44, nonce := some 3, signature := none, rawOutput := none }] 0).1 0
      = readOpts
        [{ maxFee := some 44, nonce := some 3, signature := none, rawOutput := none }] 0 :=
  ⟨by decide,
   multiInteract_preserves_caller_options env0 (.openZeppelin core0) .invoke
     [{ toContract := 11, functionName := "foo", calldata := [("x", 1)] }]
     [{ maxFee := some 44, nonce := some 3, signature := none, rawOutput := none }] 0
     (by decide)⟩

/-- C1 counterexample: with a caller-supplied signature (and no supplied
nonce), the interaction does raise the unsupported-override error, but only
after the on-chain nonce fetch, the aggregation and the hash computation
have all been performed — the trace preceding the error is
[nonceFetch, aggregateCalls, hashCompute], not empty. -/
theorem signature_override_not_first_counterexample :
    (multiInteract env0 (.openZeppelin core0) .invoke
        [{ toContract := 11, functionName := "foo", calldata := [("x", 1)] }]
        [{ signature := some [] }] 0).2.2
      = .error unsupportedOverrideMsg
    ∧ (multiInteract env0 (.openZeppelin core0) .invoke
        [{ toContract := 11, functionName := "foo", calldata := [("x", 1)] }]
        [{ signature := some [] }] 0).2.1
      = [.nonceFetch, .aggregateCalls, .hashCompute]
    ∧ Event.nonceFetch ∈ (multiInteract env0 (.openZeppelin core0) .invoke
        [{ toContract := 11, functionName := "foo", calldata := [("x", 1)] }]
        [{ signature := some [] }] 0).2.1
    ∧ Event.aggregateCalls ∈ (multiInteract env0 (.openZeppelin core0) .invoke
        [{ toContract := 11, functionName := "foo", calldata := [("x", 1)] }]
        [{ signature := some [] }] 0).2.1
    ∧ Event.hashCompute ∈ (multiInteract env0 (.openZeppelin core0) .invoke
        [{ toContract := 11, functionName := "foo", calldata := [("x", 1)] }]
        [{ signature := some [] }] 0).2.1 :=
  ⟨rfl, rfl, by decide, by decide, by decide⟩

/-- C1 (amended): whenever the caller-supplied options contain a
signature, multiInteract raises the unsupported-override error and the
dispatch collaborator is never invoked, nor is any signing performed; the
rejection happens after nonce resolution, aggregation and hashing, not
before them. -/
theorem signature_override_rejected (env : Env) (acct : Account)
    (choice : Choice) (callParameters : List CallParameters) (s0 : Store)
    (callerRef : Nat) (sig : List Felt)
    (h : (readOpts s0 callerRef).signature = some sig) :
    (multiInteract env acct choice callParameters s0 callerRef).2.2
      = .error unsupportedOverrideMsg
    ∧ Event.signMessage ∉ (multiInteract env acct choice callParameters s0 callerRef).2.1
    ∧ Event.dispatch ∉ (multiInteract env acct choice callParameters s0 callerRef).2.1
    ∧ (multiInteract env acct choice callParameters s0 callerRef).2.1
      = (resolveNonce env (readOpts s0 callerRef)).2
        ++ [.aggregateCalls, .hashCompute] := by
  have hr := multiInteract_run env acct choice callParameters s0 callerRef
  rcases ho : readOpts s0 callerRef with ⟨mf, non, sigf, ro⟩
  rw [ho] at hr h
  subst h
  rw [hr]
  refine ⟨rfl, ?_, ?_, rfl⟩ <;>
    · simp only [multiInteractResult, resolveNonce]
      rcases non with _ | n
      · simp
      · by_cases hn : n = 0 <;> simp [hn]

theorem signature_override_rejected_witness :
    (readOpts [{ signature := some [5] }] 0).signature = some [5]
    ∧ ((multiInteract env0 (.openZeppelin core0) .invoke
        [{ toContract := 11, functionName := "foo", calldata := [("x", 1)] }]
        [{ signature := some [5] }] 0).2.2 = .error unsupportedOverrideMsg
    ∧ Event.signMessage ∉ (multiInteract env0 (.openZeppelin core0) .invoke
        [{ toContract := 11, functionName := "foo", calldata := [("x", 1)] }]
        [{ signature := some [5] }] 0).2.1
    ∧ Event.dispatch ∉ (multiInteract env0 (.openZeppelin core0) .invoke
        [{ toContract := 11, functionName := "foo", calldata := [("x", 1)] }]
        [{ signature := some [5] }] 0).2.1
    ∧ (multiInteract env0 (.openZeppelin core0) .invoke
        [{ toContract := 11, functionName := "foo", calldata := [("x", 1)] }]
        [{ signature := some [5] }] 0).2.1
      = (resolveNonce env0 (readOpts [{ signature := some [5] }] 0)).2
        ++ [.aggregateCalls, .hashCompute]) :=
  ⟨rfl, signature_override_rejected env0 (.openZeppelin core0) .invoke
    [{ toContract := 11, functionName := "foo", calldata := [("x", 1)] }]
    [{ signature := some [5] }] 0 [5] rfl⟩

/-- The nonce the dispatch collaborator received, when dispatch happened. -/
def outcomeNonce : Except PluginError DispatchRecord → Option Felt
  | .ok rec => some rec.nonce
  | .error _ => none

/-- The options object the dispatch collaborator received, when dispatch
happened. -/
def outcomeOptions : Except PluginError DispatchRecord → Option OptionsObj
  | .ok rec => some rec.options
  | .error _ => none

theorem multiInteractResult_ok (env : Env) (acct : Account) (choice : Choice)
    (callParameters : List CallParameters) (o : OptionsObj) (rec : DispatchRecord)
    (h : (multiInteractResult env acct choice callParameters o).2 = .ok rec) :
    o.signature = none
    ∧ rec.nonce = (resolveNonce env o).1
    ∧ rec.options.rawOutput = o.rawOutput
    ∧ rec.options.nonce = none
    ∧ rec.options.maxFee = some (o.maxFee.getD 0)
    ∧ rec.choice = choice
    ∧ rec.entrypoint = acct.getExecutionFunctionName := by
  obtain ⟨mf, non, sigf, ro⟩ := o
  simp only [multiInteractResult] at h
  split at h
  · simp at h
  · split at h
    · simp at h
    · simp only [Except.ok.injEq] at h
      subst h
      refine ⟨by simp, by simp [resolveNonce], rfl, rfl, rfl, rfl, rfl⟩

/-- C5 counterexample: with a supplied nonce of 0, the on-chain nonce is
queried anyway (the trace contains the fetch) and the dispatched
transaction carries the fetched on-chain nonce (7), not the supplied 0 —
the JavaScript truthiness in `options.nonce || (await this.getNonce())`
treats a present zero nonce as absent. -/
theorem nonce_zero_queries_chain_counterexample :
    (readOpts [{ nonce := some 0 }] 0).nonce = some 0
    ∧ Event.nonceFetch ∈ (multiInteract env0 (.openZeppelin core0) .invoke
        [{ toContract := 11, functionName := "foo", calldata := [("x", 1)] }]
        [{ nonce := some 0 }] 0).2.1
    ∧ outcomeNonce (multiInteract env0 (.openZeppelin core0) .invoke
        [{ toContract := 11, functionName := "foo", calldata := [("x", 1)] }]
        [{ nonce := some 0 }] 0).2.2 = some env0.chainNonce
    ∧ env0.chainNonce = 7 ∧ (7 : Felt) ≠ 0 :=
  ⟨rfl, by decide, rfl, rfl, by decide⟩

/-- C5 (amended): a supplied nonzero nonce is used as the transaction
nonce with no on-chain nonce query; an absent nonce — or a supplied nonce
of exactly 0, which JavaScript truthiness treats as absent — causes the
current on-chain nonce to be queried and used. -/
theorem nonce_resolution (env : Env) (acct : Account) (choice : Choice)
    (callParameters : List CallParameters) (s0 : Store) (callerRef : Nat)
    (n : Felt) :
    ((readOpts s0 callerRef).nonce = some n → n ≠ 0 →
      Event.nonceFetch ∉ (multiInteract env acct choice callParameters s0 callerRef).2.1
      ∧ ∀ rec, (multiInteract env acct choice callParameters s0 callerRef).2.2 = .ok rec
          → rec.nonce = n)
    ∧ ((readOpts s0 callerRef).nonce = none ∨ (readOpts s0 callerRef).nonce = some 0 →
      Event.nonceFetch ∈ (multiInteract env acct choice callParameters s0 callerRef).2.1
      ∧ ∀ rec, (multiInteract env acct choice callParameters s0 callerRef).2.2 = .ok rec
          → rec.nonce = env.chainNonce) := by
  have hr := multiInteract_run env acct choice callParameters s0 callerRef
  constructor
  · intro hn hnz
    constructor
    · rw [show (multiInteract env acct choice callParameters s0 callerRef).2.1
          = (multiInteractResult env acct choice callParameters
              (readOpts s0 callerRef)).1 from congrArg Prod.fst hr]
      rcases ho : readOpts s0 callerRef with ⟨mf, non, sigf, ro⟩
      rw [ho] at hn
      simp only [OptionsObj.nonce] at hn
      subst hn
      simp only [multiInteractResult, resolveNonce, hnz]
      split <;> simp [hnz]
      · split <;> simp [hnz]
    · intro rec hrec
      rw [show (multiInteract env acct choice callParameters s0 callerRef).2.2
          = (multiInteractResult env acct choice callParameters
              (readOpts s0 callerRef)).2 from congrArg Prod.snd hr] at hrec
      have := (multiInteractResult_ok env acct choice callParameters _ rec hrec).2.1
      rw [this, resolveNonce, hn]
      simp [hnz]
  · intro hn
    constructor
    · rw [show (multiInteract env acct choice callParameters s0 callerRef).2.1
          = (multiInteractResult env acct choice callParameters
              (readOpts s0 callerRef)).1 from congrArg Prod.fst hr]
      rcases ho : readOpts s0 callerRef with ⟨mf, non, sigf, ro⟩
      rw [ho] at hn
      simp only [OptionsObj.nonce] at hn
      rcases hn with rfl | rfl
      · simp only [multiInteractResult, resolveNonce]
        split <;> simp
        · split <;> simp
      · simp only [multiInteractResult, resolveNonce]
        split <;> simp
        · split <;> simp
    · intro rec hrec
      rw [show (multiInteract env acct choice callParameters s0 callerRef).2.2
          = (multiInteractResult env acct choice callParameters
              (readOpts s0 callerRef)).2 from congrArg Prod.snd hr] at hrec
      have := (multiInteractResult_ok env acct choice callParameters _ rec hrec).2.1
      rcases hn with hn | hn <;> rw [this, resolveNonce, hn] <;> simp

theorem nonce_resolution_witness :
    ((readOpts [{ nonce := some 5 }] 0).nonce = some 5 ∧ (5 : Felt) ≠ 0
    ∧ (Event.nonceFetch ∉ (multiInteract env0 (.openZeppelin core0) .invoke
        [{ toContract := 11, functionName := "foo", calldata := [("x", 1)] }]
        [{ nonce := some 5 }] 0).2.1
      ∧ ∀ rec, (multiInteract env0 (.openZeppelin core0) .invoke
          [{ toContract := 11, functionName := "foo", calldata := [("x", 1)] }]
          [{ nonce := some 5 }] 0).2.2 = .ok rec → rec.nonce = 5))
    ∧ ((readOpts [({} : OptionsObj)] 0).nonce = none
    ∧ (Event.nonceFetch ∈ (multiInteract env0 (.openZeppelin core0) .invoke
        [{ toContract := 11, functionName := "foo", calldata := [("x", 1)] }]
        [({} : OptionsObj)] 0).2.1
      ∧ ∀ rec, (multiInteract env0 (.openZeppelin core0) .invoke
          [{ toContract := 11, functionName := "foo", calldata := [("x", 1)] }]
          [({} : OptionsObj)] 0).2.2 = .ok rec → rec.nonce = env0.chainNonce)) :=
  ⟨⟨rfl, by decide,
    (nonce_resolution env0 (.openZeppelin core0) .invoke
      [{ toContract := 11, functionName := "foo", calldata := [("x", 1)] }]
      [{ nonce := some 5 }] 0 5).1 rfl (by decide)⟩,
   ⟨rfl,
    (nonce_resolution env0 (.openZeppelin core0) .invoke
      [{ toContract := 11, functionName := "foo", calldata := [("x", 1)] }]
      [({} : OptionsObj)] 0 5).2 (Or.inl rfl)⟩⟩

/-- C6 counterexample: an ESTIMATE_FEE interaction on an Argent account
(hasRawOutput = true) passes the dispatch collaborator options whose
rawOutput is absent, not true — estimateFee and multiEstimateFee never set
the raw-output flag; only call and multiCall do. -/
theorem estimateFee_rawOutput_counterexample :
    Account.hasRawOutput (.argent core0 "g" 3 (some 9)) = true
    ∧ Option.map OptionsObj.rawOutput
        (outcomeOptions (Account.estimateFeeModel env0 (.argent core0 "g" 3 (some 9))
          11 "foo" [("x", 1)] [({} : OptionsObj)] 0).2.2)
      = some none
    ∧ some (none : Option Bool) ≠ some (some true) :=
  ⟨rfl, rfl, by decide⟩

/-- C6 (amended): on the raw-output variant (Argent), CALL interactions
issued through call/multiCall reach the dispatch collaborator with
rawOutput set to true, but ESTIMATE_FEE interactions pass the caller's
rawOutput through unchanged (the core does not set it); on the
OpenZeppelin variant the core never sets rawOutput for any of the four
entry points. -/
theorem rawOutput_only_for_call (env : Env) (core : AccountCore)
    (guardianPrivateKey : String) (guardianPublicKey : Felt)
    (guardianKeyPair : Option KeyPair) (toContract : Felt)
    (functionName : String) (calldata : StringMap)
    (callParameters : List CallParameters) (s0 : Store) (r : Nat) :
    (∀ rec, (Account.callModel env
        (.argent core guardianPrivateKey guardianPublicKey guardianKeyPair)
        toContract functionName calldata s0 r).2.2 = .ok rec
      → rec.options.rawOutput = some true)
    ∧ (∀ rec, (Account.multiCallModel env
        (.argent core guardianPrivateKey guardianPublicKey guardianKeyPair)
        callParameters s0 r).2.2 = .ok rec
      → rec.options.rawOutput = some true)
    ∧ (∀ rec, (Account.estimateFeeModel env
        (.argent core guardianPrivateKey guardianPublicKey guardianKeyPair)
        toContract functionName calldata s0 r).2.2 = .ok rec
      → rec.options.rawOutput = (readOpts s0 r).rawOutput)
    ∧ (∀ rec, (Account.multiEstimateFeeModel env
        (.argent core guardianPrivateKey guardianPublicKey guardianKeyPair)
        callParameters s0 r).2.2 = .ok rec
      → rec.options.rawOutput = (readOpts s0 r).rawOutput)
    ∧ (∀ rec, (Account.callModel env (.openZeppelin core)
        toContract functionName calldata s0 r).2.2 = .ok rec
      → rec.options.rawOutput = (readOpts s0 r).rawOutput)
    ∧ (∀ rec, (Account.multiCallModel env (.openZeppelin core)
        callParameters s0 r).2.2 = .ok rec
      → rec.options.rawOutput = (readOpts s0 r).rawOutput)
    ∧ (∀ rec, (Account.estimateFeeModel env (.openZeppelin core)
        toContract functionName calldata s0 r).2.2 = .ok rec
      → rec.options.rawOutput = (readOpts s0 r).rawOutput)
    ∧ (∀ rec, (Account.multiEstimateFeeModel env (.openZeppelin core)
        callParameters s0 r).2.2 = .ok rec
      → rec.options.rawOutput = (readOpts s0 r).rawOutput) := by
  refine ⟨?_, ?_, ?_, ?_, ?_, ?_, ?_, ?_⟩ <;> intro rec hrec
  · simp only [Account.callModel, Account.hasRawOutput, if_true, copyWithBigint,
      allocOpts] at hrec
    rw [multiInteract_run] at hrec
    have h2 := (multiInteractResult_ok _ _ _ _ _ _ hrec).2.2.1
    rw [readOpts_set_self _ _ _ (by simp)] at h2
    simpa using h2
  · simp only [Account.multiCallModel, Account.hasRawOutput, if_true, copyWithBigint,
      allocOpts] at hrec
    rw [multiInteract_run] at hrec
    have h2 := (multiInteractResult_ok _ _ _ _ _ _ hrec).2.2.1
    rw [readOpts_set_self _ _ _ (by simp)] at h2
    simpa using h2
  · simp only [Account.estimateFeeModel] at hrec
    rw [multiInteract_run] at hrec
    exact (multiInteractResult_ok _ _ _ _ _ _ hrec).2.2.1
  · simp only [Account.multiEstimateFeeModel] at hrec
    rw [multiInteract_run] at hrec
    exact (multiInteractResult_ok _ _ _ _ _ _ hrec).2.2.1
  · simp only [Account.callModel, Account.hasRawOutput, if_false] at hrec
    rw [multiInteract_run] at hrec
    exact (multiInteractResult_ok _ _ _ _ _ _ hrec).2.2.1
  · simp only [Account.multiCallModel, Account.hasRawOutput, if_false] at hrec
    rw [multiInteract_run] at hrec
    exact (multiInteractResult_ok _ _ _ _ _ _ hrec).2.2.1
  · simp only [Account.estimateFeeModel] at hrec
    rw [multiInteract_run] at hrec
    exact (multiInteractResult_ok _ _ _ _ _ _ hrec).2.2.1
  · simp only [Account.multiEstimateFeeModel] at hrec
    rw [multiInteract_run] at hrec
    exact (multiInteractResult_ok _ _ _ _ _ _ hrec).2.2.1

theorem rawOutput_only_for_call_witness :
    Option.map OptionsObj.rawOutput (outcomeOptions (Account.callModel env0
        (.argent core0 "g" 3 (some 9)) 11 "foo" [("x", 1)] [({} : OptionsObj)] 0).2.2)
      = some (some true)
    ∧ Option.map OptionsObj.rawOutput (outcomeOptions (Account.estimateFeeModel env0
        (.argent core0 "g" 3 (some 9)) 11 "foo" [("x", 1)] [({} : OptionsObj)] 0).2.2)
      = some (readOpts [({} : OptionsObj)] 0).rawOutput := by
  have T := rawOutput_only_for_call env0 core0 "g" 3 (some 9) 11 "foo" [("x", 1)]
    [{ toContract := 11, functionName := "foo", calldata := [("x", 1)] }]
    [({} : OptionsObj)] 0
  constructor
  · obtain ⟨rec, hrec⟩ : ∃ rec, (Account.callModel env0
        (.argent core0 "g" 3 (some 9)) 11 "foo" [("x", 1)]
        [({} : OptionsObj)] 0).2.2 = .ok rec := ⟨_, rfl⟩
    rw [hrec]
    simp [outcomeOptions, T.1 rec hrec]
  · obtain ⟨rec, hrec⟩ : ∃ rec, (Account.estimateFeeModel env0
        (.argent core0 "g" 3 (some 9)) 11 "foo" [("x", 1)]
        [({} : OptionsObj)] 0).2.2 = .ok rec := ⟨_, rfl⟩
    rw [hrec]
    simp [outcomeOptions, T.2.2.1 rec hrec]
